import Mathlib

/-!
# Verification of a 9×9 Sudoku solver

Shallow embedding of the Rust program in `src/main.rs`: a grid model
(`Sudoku`, a vector of vectors of optional digits), a recursive backtracking
solver (`Sudoku.solve_rec`), a sum-based validator (`Sudoku.validate`), and a
text parser (`from_str`).

Modelling conventions:
* Machine integers (`u8`) are modelled as `Nat`; all digit values stay far
  below 256, and the theorems that depend on digit arithmetic carry explicit
  range hypotheses, so wrap-around never occurs on the inputs they speak of.
* A Rust indexing operation that can panic is modelled by an `Option`-valued
  access: `none` is the panic.  Consequently every function on the panic path
  (`get`, `set`, `unset`, the row/column/house views, `solve_rec`, `validate`,
  `solve`) returns an `Option`; producing `some` proves the Rust original
  cannot panic there.
* `solve_rec` recurses on the row-major successor of its coordinate; the Lean
  embedding makes this structural with a fuel parameter.  The entry point
  `solve` supplies fuel 81 (the number of cells), which the totality theorem
  shows is sufficient.
* Rust iterates `HashSet<u8>` in an unspecified order.  The embedding fixes
  the ascending order on digits 1–9 (`candidateList`).
-/

/-- `Coord` from the source: a (row, column) pair. -/
structure Coord where
  row : Nat
  col : Nat
deriving DecidableEq

/-- `Coord::next`: the row-major successor, `none` past the end of the grid. -/
def Coord.next (c : Coord) : Option Coord :=
  let nextCol := if c.col < 8 then c.col + 1 else 0
  let nextRow := if nextCol = 0 then c.row + 1 else c.row
  if nextRow < 9 then some ⟨nextRow, nextCol⟩ else none

/-- `InvalidSudokuError` from the source. -/
inductive InvalidSudokuError where
  | Unsolvable : InvalidSudokuError
  | InvalidRow : Nat → InvalidSudokuError
  | InvalidCol : Nat → InvalidSudokuError
  | InvalidHouse : Coord → InvalidSudokuError
deriving DecidableEq

/-- `ParseSudokuError` from the source.  The `ParseIntError` payload carried by
the Rust variant is opaque to the program (it is only printed), so it is
dropped here. -/
inductive ParseSudokuError where
  | ParseInt : ParseSudokuError
  | InvalidSize : ParseSudokuError
deriving DecidableEq

/-- `Sudoku` from the source: a vector of rows of optional digits. -/
structure Sudoku where
  grid : List (List (Option Nat))
deriving DecidableEq

/-- One character of `parse_row`: `'.'` is an empty cell, otherwise the
character is parsed as a `u8`, which succeeds exactly on the ASCII digits
`'0'`–`'9'` (note that `'0'` parses to `0`). -/
def parse_cell (ch : Char) : Except ParseSudokuError (Option Nat) :=
  if ch = '.' then Except.ok none
  else if ch.isDigit then Except.ok (some (ch.toNat - 48))
  else Except.error ParseSudokuError.ParseInt

/-- `parse_row` from the source: parse every character of one line,
short-circuiting on the first bad character. -/
def parse_row : List Char → Except ParseSudokuError (List (Option Nat))
  | [] => Except.ok []
  | ch :: l =>
    match parse_cell ch with
    | Except.error e => Except.error e
    | Except.ok o =>
      match parse_row l with
      | Except.error e => Except.error e
      | Except.ok os => Except.ok (o :: os)

/-- The `collect` over lines in `from_str`: parse the rows in order,
short-circuiting on the first failing row. -/
def parse_rows : List (List Char) → Except ParseSudokuError (List (List (Option Nat)))
  | [] => Except.ok []
  | l :: ls =>
    match parse_row l with
    | Except.error e => Except.error e
    | Except.ok r =>
      match parse_rows ls with
      | Except.error e => Except.error e
      | Except.ok rs => Except.ok (r :: rs)

/-- `<Sudoku as FromStr>::from_str`, with the input text already split into
lines.  After parsing, the source checks `grid.len() != 9 || grid[0].len() != 9`
and otherwise accepts the grid. -/
def from_str (lines : List (List Char)) : Except ParseSudokuError Sudoku :=
  match parse_rows lines with
  | Except.error e => Except.error e
  | Except.ok grid =>
    if grid.length = 9 then
      if (grid.headD []).length = 9 then Except.ok ⟨grid⟩
      else Except.error ParseSudokuError.InvalidSize
    else Except.error ParseSudokuError.InvalidSize

/-- `Sudoku::get`: `self.grid[row][col]`.  The outer `Option` is the panic of
the two indexing operations. -/
def Sudoku.get (s : Sudoku) (c : Coord) : Option (Option Nat) :=
  match s.grid[c.row]? with
  | none => none
  | some r => r[c.col]?

/-- `Sudoku::set`: `self.grid[row][col] = Some(value)`. -/
def Sudoku.set (s : Sudoku) (c : Coord) (v : Nat) : Option Sudoku :=
  match s.grid[c.row]? with
  | none => none
  | some r =>
    if c.col < r.length then some ⟨s.grid.set c.row (r.set c.col (some v))⟩
    else none

/-- `Sudoku::unset`: `self.grid[row][col] = None`. -/
def Sudoku.unset (s : Sudoku) (c : Coord) : Option Sudoku :=
  match s.grid[c.row]? with
  | none => none
  | some r =>
    if c.col < r.length then some ⟨s.grid.set c.row (r.set c.col none)⟩
    else none

/-- `Sudoku::get_row`: the set of digits present in row `index`. -/
def Sudoku.get_row (s : Sudoku) (index : Nat) : Option (Finset Nat) :=
  match s.grid[index]? with
  | none => none
  | some r => some (r.filterMap id).toFinset

/-- `Sudoku::get_col`: the set of digits present in column `index`; the source
indexes `row[index]` in every row, so it panics unless every row is long
enough. -/
def Sudoku.get_col (s : Sudoku) (index : Nat) : Option (Finset Nat) :=
  if s.grid.all (fun r => decide (index < r.length)) then
    some ((s.grid.map (fun r => r.getD index none)).filterMap id).toFinset
  else none

/-- The nine cell coordinates of the house with house-coordinate `c`, in the
row-major order of the two nested loops in `Sudoku::get_house`. -/
def houseCoords (c : Coord) : List Coord :=
  [⟨3 * c.row, 3 * c.col⟩, ⟨3 * c.row, 3 * c.col + 1⟩, ⟨3 * c.row, 3 * c.col + 2⟩,
   ⟨3 * c.row + 1, 3 * c.col⟩, ⟨3 * c.row + 1, 3 * c.col + 1⟩, ⟨3 * c.row + 1, 3 * c.col + 2⟩,
   ⟨3 * c.row + 2, 3 * c.col⟩, ⟨3 * c.row + 2, 3 * c.col + 1⟩, ⟨3 * c.row + 2, 3 * c.col + 2⟩]

/-- Sequencing of possibly-panicking reads, used to model loops of indexing
operations (`collect` of `Option`s, rendered as a plain recursion). -/
def omapM {α β : Type} (f : α → Option β) : List α → Option (List β)
  | [] => some []
  | a :: l =>
    match f a with
    | none => none
    | some b =>
      match omapM f l with
      | none => none
      | some bs => some (b :: bs)

/-- `Sudoku::get_house`: the set of digits present in the 3×3 house at house
coordinate `c` (so `⟨2, 1⟩` is the bottom-middle house). -/
def Sudoku.get_house (s : Sudoku) (c : Coord) : Option (Finset Nat) :=
  match omapM (fun c' => s.get c') (houseCoords c) with
  | none => none
  | some cells => some (cells.filterMap id).toFinset

/-- `Sudoku::get_possible_numbers`: `(1..=9)` minus the row, column and house
digit sets, computed exactly as the chained `HashSet` differences of the
source. -/
def Sudoku.get_possible_numbers (s : Sudoku) (c : Coord) : Option (Finset Nat) :=
  match s.get_row c.row with
  | none => none
  | some row =>
    match s.get_col c.col with
    | none => none
    | some col =>
      match s.get_house ⟨c.row / 3, c.col / 3⟩ with
      | none => none
      | some house => some (((Finset.Icc 1 9 \ row) \ col) \ house)

/-- The iteration order this embedding fixes for a `HashSet<u8>` of digits:
ascending order on 1–9.  (The Rust iteration order is unspecified.) -/
def candidateList (cands : Finset Nat) : List Nat :=
  ((List.range 9).map (fun n => n + 1)).filter (fun n => decide (n ∈ cands))

/-- The `for n in self.get_possible_numbers(...)` loop of `Sudoku::solve_rec`:
try each candidate in turn on the current cell, recursing via `rec`; when the
candidates run out, unset the cell and report failure. -/
def Sudoku.solve_loop (rec : Sudoku → Option (Bool × Sudoku)) (s : Sudoku) (c : Coord) :
    List Nat → Option (Bool × Sudoku)
  | [] =>
    match s.unset c with
    | none => none
    | some t => some (false, t)
  | n :: rest =>
    match s.set c n with
    | none => none
    | some s1 =>
      match rec s1 with
      | none => none
      | some (true, s2) => some (true, s2)
      | some (false, s2) => Sudoku.solve_loop rec s2 c rest

/-- `Sudoku::solve_rec`.  On the last cell (no successor) it writes the first
candidate, if any, into the cell — without checking whether the cell was
already filled — and reports success; on a filled cell it skips ahead;
otherwise it backtracks over the candidates.  `fuel` makes the recursion on
the successor coordinate structural; `none` is a panic or exhausted fuel. -/
def Sudoku.solve_rec : Nat → Sudoku → Coord → Option (Bool × Sudoku)
  | 0, _, _ => none
  | fuel + 1, s, c =>
    match c.next with
    | none =>
      match s.get_possible_numbers c with
      | none => none
      | some cands =>
        match candidateList cands with
        | [] => some (true, s)
        | n :: _ =>
          match s.set c n with
          | none => none
          | some t => some (true, t)
    | some nc =>
      match s.get c with
      | none => none
      | some (some _) => Sudoku.solve_rec fuel s nc
      | some none =>
        match s.get_possible_numbers c with
        | none => none
        | some cands =>
          Sudoku.solve_loop (fun t => Sudoku.solve_rec fuel t nc) s c (candidateList cands)

/-- One iteration of the `for n in 0..9` loop of `Sudoku::validate`: the
violation records for row `n`, column `n` and house `⟨n / 3, n % 3⟩`, each
present when the corresponding digit set does not sum to 45. -/
def Sudoku.validate_errs (s : Sudoku) (n : Nat) : Option (List InvalidSudokuError) :=
  match s.get_row n with
  | none => none
  | some r =>
    match s.get_col n with
    | none => none
    | some c =>
      match s.get_house ⟨n / 3, n % 3⟩ with
      | none => none
      | some h =>
        some ((if r.sum id = 45 then [] else [InvalidSudokuError.InvalidRow n]) ++
              (if c.sum id = 45 then [] else [InvalidSudokuError.InvalidCol n]) ++
              (if h.sum id = 45 then [] else [InvalidSudokuError.InvalidHouse ⟨n / 3, n % 3⟩]))

/-- `Sudoku::validate`: collect the violations of all groups (a `HashSet`,
modelled as a `Finset`); `Ok` exactly when the set is empty. -/
def Sudoku.validate (s : Sudoku) : Option (Except (Finset InvalidSudokuError) Unit) :=
  match omapM (Sudoku.validate_errs s) (List.range 9) with
  | none => none
  | some ls =>
    if ls.flatten.toFinset = (∅ : Finset InvalidSudokuError) then some (Except.ok ())
    else some (Except.error ls.flatten.toFinset)

/-- `Sudoku::solve`: run the search on a clone from `(0, 0)` (its Boolean
result is discarded), then gate the answer on `validate`, collapsing any
violation set to `Unsolvable`. -/
def Sudoku.solve (s : Sudoku) : Option (Except InvalidSudokuError Sudoku) :=
  match Sudoku.solve_rec 81 s ⟨0, 0⟩ with
  | none => none
  | some (_, t) =>
    match t.validate with
    | none => none
    | some (Except.ok _) => some (Except.ok t)
    | some (Except.error _) => some (Except.error InvalidSudokuError.Unsolvable)

/-- `Sudoku::solve` seen as a method on `&self`: the returned pair is the
method's result together with the caller's grid after the call (the search
mutates only the clone, so the second component is `self` unchanged). -/
def Sudoku.solve_frame (s : Sudoku) : Option ((Except InvalidSudokuError Sudoku) × Sudoku) :=
  match s.solve with
  | none => none
  | some r => some (r, s)

/-- Shape invariant of a parsed-and-checked grid: 9 rows of 9 cells. -/
def Sudoku.wf (s : Sudoku) : Prop :=
  s.grid.length = 9 ∧ ∀ r ∈ s.grid, r.length = 9

instance (s : Sudoku) : Decidable s.wf :=
  decidable_of_iff (s.grid.length = 9 ∧ ∀ r ∈ s.grid, r.length = 9) Iff.rfl

/-- Every present digit of the grid is at most 9. -/
def Sudoku.cellsLe9 (s : Sudoku) : Prop :=
  ∀ r ∈ s.grid, ∀ o ∈ r, o.getD 0 ≤ 9

instance (s : Sudoku) : Decidable s.cellsLe9 :=
  decidable_of_iff (∀ r ∈ s.grid, ∀ o ∈ r, o.getD 0 ≤ 9) Iff.rfl

/-- A cell holds either nothing or a digit in `[1, 9]`. -/
def cellIn1to9 : Option Nat → Prop
  | none => True
  | some d => 1 ≤ d ∧ d ≤ 9

instance (o : Option Nat) : Decidable (cellIn1to9 o) :=
  match o with
  | none => inferInstanceAs (Decidable True)
  | some _ => inferInstanceAs (Decidable (_ ∧ _))

/-- Every cell of the grid is empty or holds a digit in `[1, 9]`. -/
def Sudoku.cellsIn1to9 (s : Sudoku) : Prop :=
  ∀ r ∈ s.grid, ∀ o ∈ r, cellIn1to9 o

instance (s : Sudoku) : Decidable s.cellsIn1to9 :=
  decidable_of_iff (∀ r ∈ s.grid, ∀ o ∈ r, cellIn1to9 o) Iff.rfl

/-- The cell at `(r, c)`, reading out of range as empty (used only to state
properties; the executable accessors above model the panicking reads). -/
def Sudoku.cellD (s : Sudoku) (r c : Nat) : Option Nat :=
  (s.grid.getD r []).getD c none

/-- The 9 cells of row `r`, for stating group properties. -/
def Sudoku.rowCells (s : Sudoku) (r : Nat) : List (Option Nat) :=
  s.grid.getD r []

/-- The 9 cells of column `c`, for stating group properties. -/
def Sudoku.colCells (s : Sudoku) (c : Nat) : List (Option Nat) :=
  s.grid.map (fun row => row.getD c none)

/-- The 9 cells of the house with house-coordinate `(a, b)`, for stating group
properties. -/
def Sudoku.houseCells (s : Sudoku) (a b : Nat) : List (Option Nat) :=
  (houseCoords ⟨a, b⟩).map (fun c => s.cellD c.row c.col)

/-- A group of cells contains each digit 1–9 exactly once. -/
def groupOnce (cells : List (Option Nat)) : Prop :=
  ∀ d ∈ Finset.Icc (1 : Nat) 9, (cells.filterMap id).count d = 1

instance (cells : List (Option Nat)) : Decidable (groupOnce cells) :=
  decidable_of_iff (∀ d ∈ Finset.Icc (1 : Nat) 9, (cells.filterMap id).count d = 1) Iff.rfl

/-- Every cell of the grid is filled. -/
def Sudoku.complete (s : Sudoku) : Prop :=
  ∀ r ∈ s.grid, ∀ o ∈ r, o ≠ none

instance (s : Sudoku) : Decidable s.complete :=
  decidable_of_iff (∀ r ∈ s.grid, ∀ o ∈ r, o ≠ none) Iff.rfl

/-- The input format as the specification words it: exactly 9 lines of exactly
9 characters, each a digit `'1'`–`'9'` or the blank marker `'.'`. -/
def specValidInput (lines : List (List Char)) : Prop :=
  lines.length = 9 ∧ ∀ l ∈ lines, l.length = 9 ∧ ∀ ch ∈ l, ch = '.' ∨ ('1' ≤ ch ∧ ch ≤ '9')

instance (lines : List (List Char)) : Decidable (specValidInput lines) :=
  decidable_of_iff
    (lines.length = 9 ∧ ∀ l ∈ lines, l.length = 9 ∧ ∀ ch ∈ l, ch = '.' ∨ ('1' ≤ ch ∧ ch ≤ '9'))
    Iff.rfl

/-- `n`-fold application of `Coord::next` starting from the origin. -/
def iterNext : Nat → Option Coord
  | 0 => some ⟨0, 0⟩
  | n + 1 =>
    match iterNext n with
    | none => none
    | some c => c.next

/-- Helper for writing rows of fully solved grids. -/
def r9 (a b c d e f g h i : Nat) : List (Option Nat) :=
  [some a, some b, some c, some d, some e, some f, some g, some h, some i]

/-- A fully solved, valid grid (each band of rows shifts the previous by 3). -/
def solvedGrid : Sudoku :=
  ⟨[r9 1 2 3 4 5 6 7 8 9, r9 4 5 6 7 8 9 1 2 3, r9 7 8 9 1 2 3 4 5 6,
    r9 2 3 1 5 6 4 8 9 7, r9 5 6 4 8 9 7 2 3 1, r9 8 9 7 2 3 1 5 6 4,
    r9 3 1 2 6 4 5 9 7 8, r9 6 4 5 9 7 8 3 1 2, r9 9 7 8 3 1 2 6 4 5]⟩

/-- `solvedGrid` with the clue at `(8, 8)` replaced by a `9`, duplicating the
`9` already present in row 8, column 8 and the bottom-right house. -/
def dupClueGrid : Sudoku :=
  ⟨[r9 1 2 3 4 5 6 7 8 9, r9 4 5 6 7 8 9 1 2 3, r9 7 8 9 1 2 3 4 5 6,
    r9 2 3 1 5 6 4 8 9 7, r9 5 6 4 8 9 7 2 3 1, r9 8 9 7 2 3 1 5 6 4,
    r9 3 1 2 6 4 5 9 7 8, r9 6 4 5 9 7 8 3 1 2, r9 9 7 8 3 1 2 6 4 9]⟩

/-- The all-empty grid. -/
def blankGrid : Sudoku :=
  ⟨List.replicate 9 (List.replicate 9 (none : Option Nat))⟩

/-- An input text (as lines of characters) that the specification rejects —
its first line contains a `'0'` and its second line has ten characters — but
that `from_str` accepts. -/
def badLines : List (List Char) :=
  [['0', '1', '2', '3', '4', '5', '6', '7', '8'],
   ['1', '2', '3', '4', '5', '6', '7', '8', '9', '1'],
   ['1', '2', '3', '4', '5', '6', '7', '8', '9'],
   ['1', '2', '3', '4', '5', '6', '7', '8', '9'],
   ['1', '2', '3', '4', '5', '6', '7', '8', '9'],
   ['1', '2', '3', '4', '5', '6', '7', '8', '9'],
   ['1', '2', '3', '4', '5', '6', '7', '8', '9'],
   ['1', '2', '3', '4', '5', '6', '7', '8', '9'],
   ['.', '.', '.', '.', '.', '.', '.', '.', '.']]

/-! ## Basic facts about coordinates and cell access -/

theorem Coord.next_eq_none_iff {c : Coord} (hr : c.row < 9) (hc : c.col < 9) :
    c.next = none ↔ c = ⟨8, 8⟩ := by
  obtain ⟨r, co⟩ := c
  simp only at hr hc
  interval_cases r <;> interval_cases co <;> decide

theorem Coord.next_char (r co : Nat) :
    Coord.next ⟨r, co⟩ = if co < 8 then (if r < 9 then some ⟨r, co + 1⟩ else none)
      else (if r + 1 < 9 then some ⟨r + 1, 0⟩ else none) := by
  unfold Coord.next
  by_cases h8 : co < 8
  · simp [h8, Nat.succ_ne_zero]
  · simp [h8]

theorem Coord.next_spec {c nc : Coord} (hr : c.row < 9) (hc : c.col < 9)
    (h : c.next = some nc) :
    nc.row < 9 ∧ nc.col < 9 ∧ 9 * nc.row + nc.col = 9 * c.row + c.col + 1 := by
  obtain ⟨r, co⟩ := c
  simp only at hr hc
  rw [Coord.next_char] at h
  by_cases h8 : co < 8
  · rw [if_pos h8, if_pos hr] at h
    cases h
    refine ⟨by simp_all, by simp; omega, by simp; omega⟩
  · rw [if_neg h8] at h
    by_cases h9 : r + 1 < 9
    · rw [if_pos h9] at h
      cases h
      refine ⟨by simp_all, by simp, by simp; omega⟩
    · rw [if_neg h9] at h
      cases h

theorem Sudoku.rowAt {s : Sudoku} (hwf : s.wf) {r : Nat} (hr : r < 9) :
    s.grid[r]? = some (s.rowCells r) ∧ (s.rowCells r).length = 9 ∧ s.rowCells r ∈ s.grid := by
  have hlen : r < s.grid.length := by rw [hwf.1]; exact hr
  have h2 : s.rowCells r = s.grid[r] := List.getD_eq_getElem _ _ hlen
  refine ⟨by rw [h2]; exact List.getElem?_eq_getElem hlen, ?_, ?_⟩
  · rw [h2]; exact hwf.2 _ (List.getElem_mem hlen)
  · rw [h2]; exact List.getElem_mem hlen

theorem Sudoku.cellD_eq_getElem {s : Sudoku} {r c : Nat} (hc : c < (s.rowCells r).length) :
    s.cellD r c = (s.rowCells r)[c] := List.getD_eq_getElem _ _ hc

theorem Sudoku.get_eq {s : Sudoku} (hwf : s.wf) {r c : Nat} (hr : r < 9) (hc : c < 9) :
    s.get ⟨r, c⟩ = some (s.cellD r c) := by
  obtain ⟨hrow, hlen, -⟩ := Sudoku.rowAt hwf hr
  have hc' : c < (s.rowCells r).length := by rw [hlen]; exact hc
  show (match s.grid[r]? with
    | none => none
    | some row => row[c]?) = some (s.cellD r c)
  rw [hrow]
  show (s.rowCells r)[c]? = some (s.cellD r c)
  rw [List.getElem?_eq_getElem hc', Sudoku.cellD_eq_getElem hc']

theorem Sudoku.cellD_mem {s : Sudoku} (hwf : s.wf) {r c : Nat} (hr : r < 9) (hc : c < 9) :
    s.cellD r c ∈ s.rowCells r := by
  obtain ⟨-, hlen, -⟩ := Sudoku.rowAt hwf hr
  have hc' : c < (s.rowCells r).length := by rw [hlen]; exact hc
  rw [Sudoku.cellD_eq_getElem hc']
  exact List.getElem_mem hc'

theorem Sudoku.write_spec {s : Sudoku} (hwf : s.wf) {r c : Nat} (hr : r < 9) (hc : c < 9)
    (o : Option Nat) :
    (Sudoku.mk (s.grid.set r ((s.rowCells r).set c o))).wf ∧
    (∀ r' c', r' < 9 → c' < 9 →
      (Sudoku.mk (s.grid.set r ((s.rowCells r).set c o))).cellD r' c' =
        if r' = r ∧ c' = c then o else s.cellD r' c') ∧
    (∀ row ∈ (s.grid.set r ((s.rowCells r).set c o)), ∀ cell ∈ row,
      cell = o ∨ ∃ row₀ ∈ s.grid, cell ∈ row₀) := by
  obtain ⟨hrow, hlen, hmem⟩ := Sudoku.rowAt hwf hr
  have hr' : r < s.grid.length := by rw [hwf.1]; exact hr
  have hc' : c < (s.rowCells r).length := by rw [hlen]; exact hc
  refine ⟨⟨by simpa using hwf.1, ?_⟩, ?_, ?_⟩
  · intro row hrowmem
    rcases List.mem_or_eq_of_mem_set hrowmem with h | h
    · exact hwf.2 _ h
    · subst h; simpa using hwf.2 _ hmem
  · intro r' c' hr9 hc9
    have hrl' : r' < (s.grid.set r ((s.rowCells r).set c o)).length := by
      simpa [hwf.1] using hr9
    have hrl : r' < s.grid.length := by rw [hwf.1]; exact hr9
    show ((s.grid.set r ((s.rowCells r).set c o)).getD r' []).getD c' none = _
    rw [List.getD_eq_getElem _ _ hrl', List.getElem_set]
    by_cases hrr : r = r'
    · subst hrr
      have hcl : c' < ((s.rowCells r).set c o).length := by
        simpa [hlen] using hc9
      have hcl2 : c' < (s.rowCells r).length := by rw [hlen]; exact hc9
      simp only [eq_self_iff_true, true_and, if_true]
      rw [List.getD_eq_getElem _ _ hcl, List.getElem_set]
      by_cases hcc : c = c'
      · subst hcc
        simp
      · rw [if_neg hcc, if_neg (by omega : ¬ c' = c), Sudoku.cellD_eq_getElem hcl2]
    · simp only [if_neg hrr]
      rw [if_neg (by tauto)]
      have hcl2 : c' < (s.grid[r']).length := by
        rw [hwf.2 _ (List.getElem_mem hrl)]; exact hc9
      have : s.rowCells r' = s.grid[r'] := List.getD_eq_getElem _ _ hrl
      rw [show s.cellD r' c' = (s.rowCells r').getD c' none from rfl, this,
        List.getD_eq_getElem _ _ hcl2]
  · intro row hrowmem cell hcellmem
    rcases List.mem_or_eq_of_mem_set hrowmem with h | h
    · exact Or.inr ⟨row, h, hcellmem⟩
    · subst h
      rcases List.mem_or_eq_of_mem_set hcellmem with h2 | h2
      · exact Or.inr ⟨s.rowCells r, hmem, h2⟩
      · exact Or.inl h2

theorem Sudoku.set_eq {s : Sudoku} (hwf : s.wf) {r c : Nat} (hr : r < 9) (hc : c < 9) (v : Nat) :
    s.set ⟨r, c⟩ v = some ⟨s.grid.set r ((s.rowCells r).set c (some v))⟩ := by
  obtain ⟨hrow, hlen, -⟩ := Sudoku.rowAt hwf hr
  have hc' : c < (s.rowCells r).length := by rw [hlen]; exact hc
  unfold Sudoku.set
  rw [hrow]
  exact if_pos hc'

theorem Sudoku.unset_eq {s : Sudoku} (hwf : s.wf) {r c : Nat} (hr : r < 9) (hc : c < 9) :
    s.unset ⟨r, c⟩ = some ⟨s.grid.set r ((s.rowCells r).set c none)⟩ := by
  obtain ⟨hrow, hlen, -⟩ := Sudoku.rowAt hwf hr
  have hc' : c < (s.rowCells r).length := by rw [hlen]; exact hc
  unfold Sudoku.unset
  rw [hrow]
  exact if_pos hc'

/-! ## The row/column/house views under the shape invariant -/

theorem Sudoku.get_row_eq {s : Sudoku} (hwf : s.wf) {i : Nat} (hi : i < 9) :
    s.get_row i = some ((s.rowCells i).filterMap id).toFinset := by
  obtain ⟨hrow, -, -⟩ := Sudoku.rowAt hwf hi
  unfold Sudoku.get_row
  rw [hrow]

theorem Sudoku.get_col_eq {s : Sudoku} (hwf : s.wf) {i : Nat} (hi : i < 9) :
    s.get_col i = some ((s.colCells i).filterMap id).toFinset := by
  unfold Sudoku.get_col
  rw [if_pos]
  · rfl
  · simp only [List.all_eq_true, decide_eq_true_eq]
    intro row hmem
    rw [hwf.2 _ hmem]
    exact hi

theorem Sudoku.get_house_eq {s : Sudoku} (hwf : s.wf) {a b : Nat} (ha : a < 3) (hb : b < 3) :
    s.get_house ⟨a, b⟩ = some ((s.houseCells a b).filterMap id).toFinset := by
  have g : ∀ i j : Nat, i < 3 → j < 3 →
      s.get ⟨3 * a + i, 3 * b + j⟩ = some (s.cellD (3 * a + i) (3 * b + j)) := by
    intro i j hi hj
    exact Sudoku.get_eq hwf (by omega) (by omega)
  have g00 := g 0 0 (by omega) (by omega)
  have g01 := g 0 1 (by omega) (by omega)
  have g02 := g 0 2 (by omega) (by omega)
  have g10 := g 1 0 (by omega) (by omega)
  have g11 := g 1 1 (by omega) (by omega)
  have g12 := g 1 2 (by omega) (by omega)
  have g20 := g 2 0 (by omega) (by omega)
  have g21 := g 2 1 (by omega) (by omega)
  have g22 := g 2 2 (by omega) (by omega)
  simp only [Nat.add_zero] at g00 g01 g02 g10 g20
  unfold Sudoku.get_house
  simp only [houseCoords, Sudoku.houseCells, List.map, omapM, g00, g01, g02, g10, g11, g12,
    g20, g21, g22]

theorem Sudoku.get_possible_numbers_eq {s : Sudoku} (hwf : s.wf) {c : Coord}
    (hr : c.row < 9) (hc : c.col < 9) :
    s.get_possible_numbers c =
      some (((Finset.Icc 1 9 \ ((s.rowCells c.row).filterMap id).toFinset) \
        ((s.colCells c.col).filterMap id).toFinset) \
        ((s.houseCells (c.row / 3) (c.col / 3)).filterMap id).toFinset) := by
  unfold Sudoku.get_possible_numbers
  rw [Sudoku.get_row_eq hwf hr, Sudoku.get_col_eq hwf hc,
    Sudoku.get_house_eq hwf (by omega) (by omega)]

theorem candidateList_mem {cands : Finset Nat} {n : Nat} :
    n ∈ candidateList cands ↔ (1 ≤ n ∧ n ≤ 9 ∧ n ∈ cands) := by
  unfold candidateList
  simp only [List.mem_filter, List.mem_map, List.mem_range, decide_eq_true_eq]
  constructor
  · rintro ⟨⟨m, hm, rfl⟩, h2⟩
    exact ⟨by omega, by omega, h2⟩
  · rintro ⟨h1, h2, h3⟩
    exact ⟨⟨n - 1, by omega, by omega⟩, h3⟩

theorem candidateList_nil_iff {cands : Finset Nat} (hsub : cands ⊆ Finset.Icc 1 9) :
    candidateList cands = [] ↔ cands = ∅ := by
  constructor
  · intro h
    by_contra hne
    obtain ⟨n, hn⟩ := Finset.nonempty_iff_ne_empty.mpr hne
    have hIcc := hsub hn
    rw [Finset.mem_Icc] at hIcc
    have : n ∈ candidateList cands := candidateList_mem.mpr ⟨hIcc.1, hIcc.2, hn⟩
    rw [h] at this
    cases this
  · intro h
    subst h
    rfl

theorem possible_subset {s : Sudoku} {c : Coord} {cands : Finset Nat}
    (h : s.get_possible_numbers c = some cands) : cands ⊆ Finset.Icc 1 9 := by
  unfold Sudoku.get_possible_numbers at h
  rcases hr : s.get_row c.row with _ | row <;> rw [hr] at h
  · cases h
  rcases hc : s.get_col c.col with _ | col <;> rw [hc] at h
  · cases h
  rcases hh : s.get_house ⟨c.row / 3, c.col / 3⟩ with _ | house <;> rw [hh] at h
  · cases h
  simp only [Option.some.injEq] at h
  subst h
  intro x hx
  simp only [Finset.mem_sdiff] at hx
  exact hx.1.1.1

/-! ## Sequenced reads and the validator -/

theorem omapM_isSome {α β : Type} (f : α → Option β) (l : List α)
    (h : ∀ a ∈ l, (f a).isSome) :
    ∃ ys, omapM f l = some ys ∧ List.Forall₂ (fun a b => f a = some b) l ys := by
  induction l with
  | nil => exact ⟨[], rfl, List.Forall₂.nil⟩
  | cons a l ih =>
    obtain ⟨b, hb⟩ := Option.isSome_iff_exists.mp (h a (by simp))
    obtain ⟨ys, hys, hfa⟩ := ih (fun x hx => h x (by simp [hx]))
    refine ⟨b :: ys, ?_, List.Forall₂.cons hb hfa⟩
    unfold omapM
    rw [hb, hys]

theorem Sudoku.validate_errs_isSome {s : Sudoku} (hwf : s.wf) {n : Nat} (hn : n < 9) :
    (s.validate_errs n).isSome := by
  unfold Sudoku.validate_errs
  rw [Sudoku.get_row_eq hwf hn, Sudoku.get_col_eq hwf hn,
    Sudoku.get_house_eq hwf (by omega) (by omega)]
  rfl

theorem Sudoku.validate_ok_iff {s : Sudoku} (hwf : s.wf) :
    s.validate = some (Except.ok ()) ↔ ∀ n, n < 9 → s.validate_errs n = some [] := by
  obtain ⟨ls, hls, hfa⟩ := omapM_isSome (Sudoku.validate_errs s) (List.range 9)
    (fun n hn => Sudoku.validate_errs_isSome hwf (List.mem_range.mp hn))
  have hlen : ls.length = 9 := by
    have := hfa.length_eq
    simpa using this.symm
  unfold Sudoku.validate
  rw [hls]
  show (if ls.flatten.toFinset = (∅ : Finset InvalidSudokuError) then some (Except.ok ())
      else some (Except.error ls.flatten.toFinset)) = some (Except.ok ()) ↔ _
  by_cases hemp : ls.flatten.toFinset = (∅ : Finset InvalidSudokuError)
  · rw [if_pos hemp]
    simp only [true_iff]
    intro n hn
    have hflat : ls.flatten = [] := by
      rwa [List.toFinset_eq_empty_iff] at hemp
    have hmem : ls[n] ∈ ls := List.getElem_mem (by omega)
    have hnil : ls[n] = [] := by
      rcases hx : ls[n] with _ | ⟨y, ys⟩
      · rfl
      · exfalso
        have : y ∈ ls.flatten := by
          apply List.mem_flatten.mpr
          exact ⟨ls[n], hmem, by rw [hx]; simp⟩
        rw [hflat] at this
        cases this
    have := hfa.get (show n < (List.range 9).length by simpa using hn) (show n < ls.length by omega)
    simpa [List.get_eq_getElem, List.getElem_range, hnil] using this
  · rw [if_neg hemp]
    constructor
    · intro h
      exact absurd ((Option.some.injEq _ _).mp h) (fun hh => Except.noConfusion hh)
    · intro h
      exfalso
      apply hemp
      have hflat : ls.flatten = [] := by
        apply List.flatten_eq_nil_iff.mpr
        intro x hx
        obtain ⟨⟨n, hn⟩, hget⟩ := List.get_of_mem hx
        have hn9 : n < 9 := by omega
        have := hfa.get (show n < (List.range 9).length by simpa using hn9) hn
        simp only [List.get_eq_getElem, List.getElem_range] at this
        rw [h n hn9] at this
        rw [← hget]
        exact (Option.some.injEq _ _).mp this.symm
      rw [hflat]
      rfl

theorem Sudoku.validate_errs_nil_iff {s : Sudoku} (hwf : s.wf) {n : Nat} (hn : n < 9) :
    s.validate_errs n = some [] ↔
      (((s.rowCells n).filterMap id).toFinset.sum id = 45 ∧
       ((s.colCells n).filterMap id).toFinset.sum id = 45 ∧
       ((s.houseCells (n / 3) (n % 3)).filterMap id).toFinset.sum id = 45) := by
  unfold Sudoku.validate_errs
  rw [Sudoku.get_row_eq hwf hn, Sudoku.get_col_eq hwf hn,
    Sudoku.get_house_eq hwf (by omega) (by omega)]
  simp only [Option.some.injEq]
  by_cases h1 : ((s.rowCells n).filterMap id).toFinset.sum id = 45 <;>
    by_cases h2 : ((s.colCells n).filterMap id).toFinset.sum id = 45 <;>
      by_cases h3 : ((s.houseCells (n / 3) (n % 3)).filterMap id).toFinset.sum id = 45 <;>
        simp [h1, h2, h3]

/-! ## The 45-sum test on a group of nine cells -/

theorem group_sum_45 {cells : List (Option Nat)} (hlen : cells.length = 9)
    (hle : ∀ o ∈ cells, o.getD 0 ≤ 9)
    (hsum : ((cells.filterMap id).toFinset.sum id) = 45) :
    (∀ o ∈ cells, o ≠ none) ∧ (cells.filterMap id).toFinset = Finset.Icc 1 9 ∧
      groupOnce cells := by
  have hLle : ∀ d ∈ cells.filterMap id, d ≤ 9 := by
    intro d hd
    obtain ⟨o, ho, hoo⟩ := List.mem_filterMap.mp hd
    have heq : o = some d := hoo
    have := hle o ho
    rw [heq] at this
    simpa using this
  have hsub : (cells.filterMap id).toFinset ⊆ Finset.range 10 := by
    intro d hd
    rw [Finset.mem_range]
    have := hLle d (List.mem_toFinset.mp hd)
    omega
  have hrange : (Finset.range 10).sum id = 45 := by decide
  have hadd : ((Finset.range 10) \ (cells.filterMap id).toFinset).sum id +
      (cells.filterMap id).toFinset.sum id = (Finset.range 10).sum id :=
    Finset.sum_sdiff hsub
  have hdiffsum : ((Finset.range 10) \ (cells.filterMap id).toFinset).sum id = 0 := by
    rw [hsum, hrange] at hadd
    omega
  have hzero : ∀ x ∈ (Finset.range 10) \ (cells.filterMap id).toFinset, x = 0 := by
    intro x hx
    simpa using Finset.sum_eq_zero_iff.mp hdiffsum x hx
  have hsupset : Finset.Icc 1 9 ⊆ (cells.filterMap id).toFinset := by
    intro d hd
    rw [Finset.mem_Icc] at hd
    by_contra hnot
    have hmem : d ∈ Finset.range 10 \ (cells.filterMap id).toFinset :=
      Finset.mem_sdiff.mpr ⟨Finset.mem_range.mpr (by omega), hnot⟩
    have := hzero d hmem
    omega
  have hcard9 : 9 ≤ (cells.filterMap id).toFinset.card := by
    have := Finset.card_le_card hsupset
    simpa using this
  have hLlen : (cells.filterMap id).length ≤ 9 := by
    have := List.length_filterMap_le id cells
    omega
  have hcardle : (cells.filterMap id).toFinset.card ≤ (cells.filterMap id).length :=
    List.toFinset_card_le _
  have hLlen9 : (cells.filterMap id).length = 9 := by omega
  have hnodup : (cells.filterMap id).Nodup := by
    have h1 : (cells.filterMap id).dedup.length = (cells.filterMap id).length := by
      have h2 := List.card_toFinset (cells.filterMap id)
      omega
    have hsub2 : (cells.filterMap id).dedup.Sublist (cells.filterMap id) :=
      List.dedup_sublist _
    have heq : (cells.filterMap id).dedup = cells.filterMap id := hsub2.eq_of_length h1
    rw [← heq]
    exact List.nodup_dedup _
  have hset : (cells.filterMap id).toFinset = Finset.Icc 1 9 := by
    refine (Finset.eq_of_subset_of_card_le hsupset ?_).symm
    have : (Finset.Icc (1 : Nat) 9).card = 9 := by simp
    omega
  refine ⟨?_, hset, ?_⟩
  · have hcnt : cells.countP (fun o => (id o).isSome) = cells.length := by
      have := List.length_filterMap_eq_countP id cells
      omega
    intro o ho
    have := List.countP_eq_length.mp hcnt o ho
    simp only [id] at this
    exact Option.isSome_iff_ne_none.mp this
  · intro d hd
    have hdL : d ∈ cells.filterMap id := List.mem_toFinset.mp (hset ▸ hd)
    exact List.count_eq_one_of_mem hnodup hdL

theorem group_once_sum {cells : List (Option Nat)}
    (hin : ∀ o ∈ cells, cellIn1to9 o) (honce : groupOnce cells) :
    ((cells.filterMap id).toFinset.sum id) = 45 := by
  have hset : (cells.filterMap id).toFinset = Finset.Icc 1 9 := by
    apply Finset.Subset.antisymm
    · intro d hd
      rw [List.mem_toFinset] at hd
      obtain ⟨o, ho, hoo⟩ := List.mem_filterMap.mp hd
      have heq : o = some d := hoo
      have h1 := hin o ho
      rw [heq] at h1
      exact Finset.mem_Icc.mpr h1
    · intro d hd
      rw [List.mem_toFinset]
      have h1 := honce d hd
      have : 0 < (cells.filterMap id).count d := by omega
      exact List.count_pos_iff.mp this
  rw [hset]
  decide

/-! ## Effect of a single write on the grid -/

theorem Sudoku.set_preserves {s : Sudoku} (hwf : s.wf) {c : Coord}
    (hr : c.row < 9) (hc : c.col < 9) (v : Nat) :
    ∃ t, s.set c v = some t ∧ t.wf ∧
      (∀ row ∈ t.grid, ∀ cell ∈ row, cell = some v ∨ ∃ row₀ ∈ s.grid, cell ∈ row₀) ∧
      (∀ c' : Coord, c'.row < 9 → c'.col < 9 → c' ≠ c → t.get c' = s.get c') ∧
      t.get c = some (some v) := by
  obtain ⟨hwf', hcell, hmem⟩ := Sudoku.write_spec hwf hr hc (some v)
  refine ⟨_, Sudoku.set_eq hwf hr hc v, hwf', hmem, ?_, ?_⟩
  · intro c' h1 h2 hne
    have e1 : (Sudoku.mk (s.grid.set c.row ((s.rowCells c.row).set c.col (some v)))).get
        ⟨c'.row, c'.col⟩ = _ := Sudoku.get_eq hwf' h1 h2
    have e2 : s.get ⟨c'.row, c'.col⟩ = _ := Sudoku.get_eq hwf h1 h2
    have hne' : ¬(c'.row = c.row ∧ c'.col = c.col) := by
      intro hcontra
      apply hne
      obtain ⟨hr1, hc1⟩ := hcontra
      obtain ⟨a, b⟩ := c'
      obtain ⟨a', b'⟩ := c
      simp only at hr1 hc1
      rw [hr1, hc1]
    rw [show c' = (⟨c'.row, c'.col⟩ : Coord) from rfl, e1, e2,
      hcell c'.row c'.col h1 h2, if_neg hne']
  · have e1 : (Sudoku.mk (s.grid.set c.row ((s.rowCells c.row).set c.col (some v)))).get
        ⟨c.row, c.col⟩ = _ := Sudoku.get_eq hwf' hr hc
    rw [show c = (⟨c.row, c.col⟩ : Coord) from rfl, e1, hcell c.row c.col hr hc,
      if_pos ⟨rfl, rfl⟩]

theorem Sudoku.unset_preserves {s : Sudoku} (hwf : s.wf) {c : Coord}
    (hr : c.row < 9) (hc : c.col < 9) :
    ∃ t, s.unset c = some t ∧ t.wf ∧
      (∀ row ∈ t.grid, ∀ cell ∈ row, cell = none ∨ ∃ row₀ ∈ s.grid, cell ∈ row₀) ∧
      (∀ c' : Coord, c'.row < 9 → c'.col < 9 → c' ≠ c → t.get c' = s.get c') ∧
      t.get c = some none := by
  obtain ⟨hwf', hcell, hmem⟩ := Sudoku.write_spec hwf hr hc none
  refine ⟨_, Sudoku.unset_eq hwf hr hc, hwf', hmem, ?_, ?_⟩
  · intro c' h1 h2 hne
    have e1 : (Sudoku.mk (s.grid.set c.row ((s.rowCells c.row).set c.col none))).get
        ⟨c'.row, c'.col⟩ = _ := Sudoku.get_eq hwf' h1 h2
    have e2 : s.get ⟨c'.row, c'.col⟩ = _ := Sudoku.get_eq hwf h1 h2
    have hne' : ¬(c'.row = c.row ∧ c'.col = c.col) := by
      intro hcontra
      apply hne
      obtain ⟨hr1, hc1⟩ := hcontra
      obtain ⟨a, b⟩ := c'
      obtain ⟨a', b'⟩ := c
      simp only at hr1 hc1
      rw [hr1, hc1]
    rw [show c' = (⟨c'.row, c'.col⟩ : Coord) from rfl, e1, e2,
      hcell c'.row c'.col h1 h2, if_neg hne']
  · have e1 : (Sudoku.mk (s.grid.set c.row ((s.rowCells c.row).set c.col none))).get
        ⟨c.row, c.col⟩ = _ := Sudoku.get_eq hwf' hr hc
    rw [show c = (⟨c.row, c.col⟩ : Coord) from rfl, e1, hcell c.row c.col hr hc,
      if_pos ⟨rfl, rfl⟩]

theorem Sudoku.cellsLe9_of_write {s t : Sudoku} {o : Option Nat}
    (hmem : ∀ row ∈ t.grid, ∀ cell ∈ row, cell = o ∨ ∃ row₀ ∈ s.grid, cell ∈ row₀)
    (ho : o.getD 0 ≤ 9) (hs : s.cellsLe9) : t.cellsLe9 := by
  intro row hrow cell hcell
  rcases hmem row hrow cell hcell with h | ⟨row₀, hrow₀, hcell₀⟩
  · rw [h]; exact ho
  · exact hs row₀ hrow₀ cell hcell₀

/-! ## Totality and invariants of the backtracking search -/

theorem Sudoku.solve_loop_spec
    (rec : Sudoku → Option (Bool × Sudoku))
    (hrec : ∀ u : Sudoku, u.wf → ∃ b v, rec u = some (b, v) ∧ v.wf ∧
      (u.cellsLe9 → v.cellsLe9) ∧
      (∀ c' : Coord, c'.row < 9 → c'.col < 9 → c' ≠ ⟨8, 8⟩ →
        ∀ d, u.get c' = some (some d) → v.get c' = some (some d)))
    (c : Coord) (hcr : c.row < 9) (hcc : c.col < 9)
    (l : List Nat) (hl : ∀ n ∈ l, n ≤ 9) :
    ∀ s : Sudoku, s.wf →
    ∃ b t, Sudoku.solve_loop rec s c l = some (b, t) ∧ t.wf ∧
      (s.cellsLe9 → t.cellsLe9) ∧
      (∀ c' : Coord, c'.row < 9 → c'.col < 9 → c' ≠ ⟨8, 8⟩ → c' ≠ c →
        ∀ d, s.get c' = some (some d) → t.get c' = some (some d)) := by
  induction l with
  | nil =>
    intro s hwf
    obtain ⟨t, hunset, hwf', hmem, hother, -⟩ := Sudoku.unset_preserves hwf hcr hcc
    refine ⟨false, t, ?_, hwf', ?_, ?_⟩
    · unfold Sudoku.solve_loop
      rw [hunset]
    · exact Sudoku.cellsLe9_of_write hmem (by simp)
    · intro c' h1 h2 h3 h4 d hd
      rw [hother c' h1 h2 h4]
      exact hd
  | cons n l ih =>
    intro s hwf
    obtain ⟨s1, hset, hwf1, hmem1, hother1, -⟩ := Sudoku.set_preserves hwf hcr hcc n
    obtain ⟨b, v, hv, hwfv, hlev, hprev⟩ := hrec s1 hwf1
    have hle1 : s.cellsLe9 → s1.cellsLe9 :=
      Sudoku.cellsLe9_of_write hmem1 (by simpa using hl n (by simp))
    cases b
    · obtain ⟨b2, t, hloop, hwft, hlet, hpret⟩ := ih (fun x hx => hl x (by simp [hx])) v hwfv
      refine ⟨b2, t, ?_, hwft, fun h => hlet (hlev (hle1 h)), ?_⟩
      · unfold Sudoku.solve_loop
        rw [hset]
        show (match rec s1 with
          | none => none
          | some (true, s2) => some (true, s2)
          | some (false, s2) => Sudoku.solve_loop rec s2 c l) = _
        rw [hv]
        exact hloop
      · intro c' h1 h2 h3 h4 d hd
        apply hpret c' h1 h2 h3 h4
        apply hprev c' h1 h2 h3
        rw [hother1 c' h1 h2 h4]
        exact hd
    · refine ⟨true, v, ?_, hwfv, fun h => hlev (hle1 h), ?_⟩
      · unfold Sudoku.solve_loop
        rw [hset]
        show (match rec s1 with
          | none => none
          | some (true, s2) => some (true, s2)
          | some (false, s2) => Sudoku.solve_loop rec s2 c l) = _
        rw [hv]
      · intro c' h1 h2 h3 h4 d hd
        apply hprev c' h1 h2 h3
        rw [hother1 c' h1 h2 h4]
        exact hd

theorem Sudoku.solve_rec_spec (fuel : Nat) :
    ∀ (s : Sudoku) (c : Coord), s.wf → c.row < 9 → c.col < 9 →
    81 ≤ fuel + (9 * c.row + c.col) →
    ∃ b t, Sudoku.solve_rec fuel s c = some (b, t) ∧ t.wf ∧
      (s.cellsLe9 → t.cellsLe9) ∧
      (∀ c' : Coord, c'.row < 9 → c'.col < 9 → c' ≠ ⟨8, 8⟩ →
        ∀ d, s.get c' = some (some d) → t.get c' = some (some d)) := by
  induction fuel with
  | zero =>
    intro s c hwf hr hc hfuel
    omega
  | succ fuel ih =>
    intro s c hwf hr hc hfuel
    rcases hnext : c.next with _ | nc
    · have hc88 : c = ⟨8, 8⟩ := (Coord.next_eq_none_iff hr hc).mp hnext
      have hpn := Sudoku.get_possible_numbers_eq hwf hr hc
      rcases hcl : candidateList (((Finset.Icc 1 9 \
          ((s.rowCells c.row).filterMap id).toFinset) \
          ((s.colCells c.col).filterMap id).toFinset) \
          ((s.houseCells (c.row / 3) (c.col / 3)).filterMap id).toFinset) with _ | ⟨n, rest⟩
      · refine ⟨true, s, ?_, hwf, fun h => h, fun c' h1 h2 h3 d hd => hd⟩
        unfold Sudoku.solve_rec
        rw [hnext, hpn]
        show (match candidateList (((Finset.Icc 1 9 \
            ((s.rowCells c.row).filterMap id).toFinset) \
            ((s.colCells c.col).filterMap id).toFinset) \
            ((s.houseCells (c.row / 3) (c.col / 3)).filterMap id).toFinset) with
          | [] => some (true, s)
          | n :: _ =>
            match s.set c n with
            | none => none
            | some t => some (true, t)) = _
        rw [hcl]
      · have hn9 : n ≤ 9 := by
          have hmm : n ∈ candidateList (((Finset.Icc 1 9 \
              ((s.rowCells c.row).filterMap id).toFinset) \
              ((s.colCells c.col).filterMap id).toFinset) \
              ((s.houseCells (c.row / 3) (c.col / 3)).filterMap id).toFinset) := by
            rw [hcl]
            simp
          exact (candidateList_mem.mp hmm).2.1
        obtain ⟨t, hset, hwft, hmem, hother, -⟩ := Sudoku.set_preserves hwf hr hc n
        refine ⟨true, t, ?_, hwft, Sudoku.cellsLe9_of_write hmem (by simpa using hn9), ?_⟩
        · unfold Sudoku.solve_rec
          rw [hnext, hpn]
          show (match candidateList (((Finset.Icc 1 9 \
              ((s.rowCells c.row).filterMap id).toFinset) \
              ((s.colCells c.col).filterMap id).toFinset) \
              ((s.houseCells (c.row / 3) (c.col / 3)).filterMap id).toFinset) with
            | [] => some (true, s)
            | n :: _ =>
              match s.set c n with
              | none => none
              | some t => some (true, t)) = _
          rw [hcl]
          show (match s.set c n with
            | none => none
            | some t => some (true, t)) = _
          rw [hset]
        · intro c' h1 h2 h3 d hd
          rw [hother c' h1 h2 (by rw [hc88]; exact h3)]
          exact hd
    · obtain ⟨hncr, hncc, hidx⟩ := Coord.next_spec hr hc hnext
      have hget := Sudoku.get_eq hwf hr hc
      rcases hcell : s.cellD c.row c.col with _ | d0
      · -- empty cell: loop over the candidates
        have hpn := Sudoku.get_possible_numbers_eq hwf hr hc
        have hrec : ∀ u : Sudoku, u.wf → ∃ b v,
            Sudoku.solve_rec fuel u nc = some (b, v) ∧ v.wf ∧
            (u.cellsLe9 → v.cellsLe9) ∧
            (∀ c' : Coord, c'.row < 9 → c'.col < 9 → c' ≠ ⟨8, 8⟩ →
              ∀ d, u.get c' = some (some d) → v.get c' = some (some d)) :=
          fun u hu => ih u nc hu hncr hncc (by omega)
        have hl : ∀ n ∈ candidateList (((Finset.Icc 1 9 \
            ((s.rowCells c.row).filterMap id).toFinset) \
            ((s.colCells c.col).filterMap id).toFinset) \
            ((s.houseCells (c.row / 3) (c.col / 3)).filterMap id).toFinset), n ≤ 9 :=
          fun n hn => (candidateList_mem.mp hn).2.1
        obtain ⟨b, t, hloop, hwft, hlet, hpret⟩ :=
          Sudoku.solve_loop_spec _ hrec c hr hc _ hl s hwf
        refine ⟨b, t, ?_, hwft, hlet, ?_⟩
        · unfold Sudoku.solve_rec
          rw [hnext]
          show (match s.get c with
            | none => none
            | some (some _) => Sudoku.solve_rec fuel s nc
            | some none =>
              match s.get_possible_numbers c with
              | none => none
              | some cands =>
                Sudoku.solve_loop (fun t => Sudoku.solve_rec fuel t nc) s c
                  (candidateList cands)) = _
          rw [show c = (⟨c.row, c.col⟩ : Coord) from rfl, hget, hcell]
          show (match s.get_possible_numbers c with
            | none => none
            | some cands =>
              Sudoku.solve_loop (fun t => Sudoku.solve_rec fuel t nc) s c
                (candidateList cands)) = _
          rw [hpn]
          exact hloop
        · intro c' h1 h2 h3 d hd
          by_cases hcc' : c' = c
          · exfalso
            rw [hcc'] at hd
            rw [show c = (⟨c.row, c.col⟩ : Coord) from rfl] at hd
            rw [hget, hcell] at hd
            cases hd
          · exact hpret c' h1 h2 h3 hcc' d hd
      · -- filled cell: skip ahead
        obtain ⟨b, t, hrec, hwft, hlet, hpret⟩ := ih s nc hwf hncr hncc (by omega)
        refine ⟨b, t, ?_, hwft, hlet, hpret⟩
        unfold Sudoku.solve_rec
        rw [hnext]
        show (match s.get c with
          | none => none
          | some (some _) => Sudoku.solve_rec fuel s nc
          | some none =>
            match s.get_possible_numbers c with
            | none => none
            | some cands =>
              Sudoku.solve_loop (fun t => Sudoku.solve_rec fuel t nc) s c
                (candidateList cands)) = _
        rw [show c = (⟨c.row, c.col⟩ : Coord) from rfl, hget, hcell]
        exact hrec

theorem Sudoku.validate_isSome {s : Sudoku} (hwf : s.wf) :
    ∃ v, s.validate = some v := by
  obtain ⟨ls, hls, -⟩ := omapM_isSome (Sudoku.validate_errs s) (List.range 9)
    (fun n hn => Sudoku.validate_errs_isSome hwf (List.mem_range.mp hn))
  unfold Sudoku.validate
  rw [hls]
  show ∃ v, (if ls.flatten.toFinset = (∅ : Finset InvalidSudokuError) then some (Except.ok ())
    else some (Except.error ls.flatten.toFinset)) = some v
  split
  · exact ⟨_, rfl⟩
  · exact ⟨_, rfl⟩

theorem Sudoku.solve_rec_top {s : Sudoku} (hwf : s.wf) :
    ∃ b t, Sudoku.solve_rec 81 s ⟨0, 0⟩ = some (b, t) ∧ t.wf ∧
      (s.cellsLe9 → t.cellsLe9) ∧
      (∀ c' : Coord, c'.row < 9 → c'.col < 9 → c' ≠ ⟨8, 8⟩ →
        ∀ d, s.get c' = some (some d) → t.get c' = some (some d)) :=
  Sudoku.solve_rec_spec 81 s ⟨0, 0⟩ hwf (by decide) (by decide) (by decide)

theorem Sudoku.solve_match {s : Sudoku} {b : Bool} {t : Sudoku}
    (hrec : Sudoku.solve_rec 81 s ⟨0, 0⟩ = some (b, t)) :
    s.solve = (match t.validate with
      | none => none
      | some (Except.ok _) => some (Except.ok t)
      | some (Except.error _) => some (Except.error InvalidSudokuError.Unsolvable)) := by
  unfold Sudoku.solve
  rw [hrec]

theorem Sudoku.solve_ok_elim {s t : Sudoku} (hwf : s.wf) (h : s.solve = some (Except.ok t)) :
    ∃ b, Sudoku.solve_rec 81 s ⟨0, 0⟩ = some (b, t) ∧ t.validate = some (Except.ok ()) ∧
      t.wf ∧ (s.cellsLe9 → t.cellsLe9) ∧
      (∀ c' : Coord, c'.row < 9 → c'.col < 9 → c' ≠ ⟨8, 8⟩ →
        ∀ d, s.get c' = some (some d) → t.get c' = some (some d)) := by
  obtain ⟨b, t', hrec, hwft, hle, hpres⟩ := Sudoku.solve_rec_top hwf
  obtain ⟨v, hval⟩ := Sudoku.validate_isSome hwft
  rw [Sudoku.solve_match hrec, hval] at h
  rcases v with errs | u
  · simp at h
  · cases u
    simp only [Option.some.injEq, Except.ok.injEq] at h
    subst h
    exact ⟨b, hrec, hval, hwft, hle, hpres⟩

/-! ## From the validator to the group properties -/

theorem group_cells_sub {s : Sudoku} (hwf : s.wf) {P : Option Nat → Prop}
    (hall : ∀ row ∈ s.grid, ∀ o ∈ row, P o) :
    (∀ r, r < 9 → ∀ o ∈ s.rowCells r, P o) ∧
    (∀ c, c < 9 → ∀ o ∈ s.colCells c, P o) ∧
    (∀ a b, a < 3 → b < 3 → ∀ o ∈ s.houseCells a b, P o) := by
  have hrow : ∀ r, r < 9 → ∀ o ∈ s.rowCells r, P o := by
    intro r hr o ho
    obtain ⟨-, -, hmem⟩ := Sudoku.rowAt hwf hr
    exact hall _ hmem o ho
  refine ⟨hrow, ?_, ?_⟩
  · intro c hc o ho
    obtain ⟨row, hrowmem, rfl⟩ := List.mem_map.mp ho
    have hlen : c < row.length := by rw [hwf.2 _ hrowmem]; exact hc
    rw [List.getD_eq_getElem _ _ hlen]
    exact hall _ hrowmem _ (List.getElem_mem hlen)
  · intro a b ha hb o ho
    obtain ⟨cd, hcdmem, rfl⟩ := List.mem_map.mp ho
    have hbounds : cd.row < 9 ∧ cd.col < 9 := by
      simp only [houseCoords, List.mem_cons, List.not_mem_nil, or_false] at hcdmem
      rcases hcdmem with rfl | rfl | rfl | rfl | rfl | rfl | rfl | rfl | rfl <;>
        exact ⟨by simp; omega, by simp; omega⟩
    have := Sudoku.cellD_mem hwf hbounds.1 hbounds.2
    exact hrow _ hbounds.1 _ this

theorem group_lengths {s : Sudoku} (hwf : s.wf) :
    (∀ r, r < 9 → (s.rowCells r).length = 9) ∧ (∀ c, (s.colCells c).length = 9) ∧
    (∀ a b, (s.houseCells a b).length = 9) := by
  refine ⟨fun r hr => (Sudoku.rowAt hwf hr).2.1, ?_, ?_⟩
  · intro c
    simp [Sudoku.colCells, hwf.1]
  · intro a b
    simp [Sudoku.houseCells, houseCoords]

theorem validate_ok_groups {t : Sudoku} (hwf : t.wf) (hle : t.cellsLe9)
    (hok : t.validate = some (Except.ok ())) :
    t.complete ∧ (∀ r, r < 9 → groupOnce (t.rowCells r)) ∧
      (∀ c, c < 9 → groupOnce (t.colCells c)) ∧
      (∀ a b, a < 3 → b < 3 → groupOnce (t.houseCells a b)) := by
  have herrs := (Sudoku.validate_ok_iff hwf).mp hok
  obtain ⟨hrowP, hcolP, hhouseP⟩ := group_cells_sub hwf (P := fun o => o.getD 0 ≤ 9) hle
  obtain ⟨hrl, hcl, hhl⟩ := group_lengths hwf
  have hrow : ∀ r, r < 9 → (∀ o ∈ t.rowCells r, o ≠ none) ∧ groupOnce (t.rowCells r) := by
    intro r hr
    have hsum := ((Sudoku.validate_errs_nil_iff hwf hr).mp (herrs r hr)).1
    obtain ⟨hcomp, -, honce⟩ := group_sum_45 (hrl r hr) (hrowP r hr) hsum
    exact ⟨hcomp, honce⟩
  refine ⟨?_, fun r hr => (hrow r hr).2, ?_, ?_⟩
  · intro row hrowmem o ho
    obtain ⟨r, hrlen, heq⟩ := List.mem_iff_getElem.mp hrowmem
    have hr9 : r < 9 := by rw [hwf.1] at hrlen; exact hrlen
    have hrowcells : t.rowCells r = row := by
      rw [show t.rowCells r = t.grid.getD r [] from rfl, List.getD_eq_getElem _ _ hrlen, heq]
    apply (hrow r hr9).1 o
    rw [hrowcells]
    exact ho
  · intro c hc
    have hsum := ((Sudoku.validate_errs_nil_iff hwf hc).mp (herrs c hc)).2.1
    obtain ⟨-, -, honce⟩ := group_sum_45 (hcl c) (hcolP c hc) hsum
    exact honce
  · intro a b ha hb
    have hn : 3 * a + b < 9 := by omega
    have hsum := ((Sudoku.validate_errs_nil_iff hwf hn).mp (herrs _ hn)).2.2
    rw [show (3 * a + b) / 3 = a by omega, show (3 * a + b) % 3 = b by omega] at hsum
    obtain ⟨-, -, honce⟩ := group_sum_45 (hhl a b) (hhouseP a b ha hb) hsum
    exact honce

theorem groups_validate_ok {t : Sudoku} (hwf : t.wf) (hin : t.cellsIn1to9)
    (hrows : ∀ r, r < 9 → groupOnce (t.rowCells r))
    (hcols : ∀ c, c < 9 → groupOnce (t.colCells c))
    (hhouses : ∀ a b, a < 3 → b < 3 → groupOnce (t.houseCells a b)) :
    t.validate = some (Except.ok ()) := by
  apply (Sudoku.validate_ok_iff hwf).mpr
  intro n hn
  obtain ⟨hrowP, hcolP, hhouseP⟩ := group_cells_sub hwf (P := cellIn1to9) hin
  apply (Sudoku.validate_errs_nil_iff hwf hn).mpr
  refine ⟨group_once_sum (hrowP n hn) (hrows n hn),
    group_once_sum (hcolP n hn) (hcols n hn), ?_⟩
  have ha : n / 3 < 3 := by omega
  have hb : n % 3 < 3 := by omega
  exact group_once_sum (hhouseP _ _ ha hb) (hhouses _ _ ha hb)

/-! ## Parsing lemmas -/

theorem parse_cell_ok_iff {ch : Char} : (∃ o, parse_cell ch = Except.ok o) ↔
    (ch = '.' ∨ ch.isDigit) := by
  unfold parse_cell
  by_cases h1 : ch = '.'
  · simp [h1]
  · by_cases h2 : ch.isDigit <;> simp [h1, h2]

theorem parse_row_ok_iff {l : List Char} :
    (∃ r, parse_row l = Except.ok r) ↔ ∀ ch ∈ l, ch = '.' ∨ ch.isDigit := by
  induction l with
  | nil => simp [parse_row]
  | cons ch l ih =>
    constructor
    · rintro ⟨r, hr⟩
      unfold parse_row at hr
      rcases hc : parse_cell ch with e | o <;> rw [hc] at hr
      · cases hr
      rcases hrest : parse_row l with e | os <;> rw [hrest] at hr
      · cases hr
      intro x hx
      rcases List.mem_cons.mp hx with rfl | hx2
      · exact parse_cell_ok_iff.mp ⟨o, hc⟩
      · exact ih.mp ⟨os, hrest⟩ x hx2
    · intro h
      obtain ⟨o, hc⟩ : ∃ o, parse_cell ch = Except.ok o :=
        parse_cell_ok_iff.mpr (h ch (by simp))
      obtain ⟨os, hrest⟩ := ih.mpr (fun x hx => h x (by simp [hx]))
      refine ⟨o :: os, ?_⟩
      unfold parse_row
      rw [hc, hrest]

theorem parse_row_length {l : List Char} {r : List (Option Nat)}
    (h : parse_row l = Except.ok r) : r.length = l.length := by
  induction l generalizing r with
  | nil =>
    cases h
    rfl
  | cons ch l ih =>
    unfold parse_row at h
    rcases hc : parse_cell ch with e | o <;> rw [hc] at h
    · cases h
    rcases hrest : parse_row l with e | os <;> rw [hrest] at h
    · cases h
    cases h
    simpa using ih hrest

theorem parse_rows_spec {ls : List (List Char)} {g : List (List (Option Nat))}
    (h : parse_rows ls = Except.ok g) :
    g.length = ls.length ∧ (g.headD []).length = (ls.headD []).length ∧
    ∀ l ∈ ls, ∀ ch ∈ l, ch = '.' ∨ ch.isDigit := by
  induction ls generalizing g with
  | nil =>
    cases h
    exact ⟨rfl, rfl, by simp⟩
  | cons l ls ih =>
    unfold parse_rows at h
    rcases hr : parse_row l with e | r <;> rw [hr] at h
    · cases h
    rcases hrest : parse_rows ls with e | rs <;> rw [hrest] at h
    · cases h
    cases h
    obtain ⟨hlen, hhead, hchars⟩ := ih hrest
    refine ⟨by simpa using hlen, ?_, ?_⟩
    · simpa using parse_row_length hr
    · intro x hx
      rcases List.mem_cons.mp hx with rfl | hx2
      · exact parse_row_ok_iff.mp ⟨r, hr⟩
      · exact hchars x hx2

theorem parse_rows_ok_of_chars {ls : List (List Char)}
    (h : ∀ l ∈ ls, ∀ ch ∈ l, ch = '.' ∨ ch.isDigit) :
    ∃ g, parse_rows ls = Except.ok g := by
  induction ls with
  | nil => exact ⟨[], rfl⟩
  | cons l ls ih =>
    obtain ⟨r, hr⟩ := parse_row_ok_iff.mpr (h l (by simp))
    obtain ⟨rs, hrest⟩ := ih (fun x hx => h x (by simp [hx]))
    refine ⟨r :: rs, ?_⟩
    unfold parse_rows
    rw [hr, hrest]

/-! ## Claim theorems -/

set_option maxRecDepth 4000 in
/-- Claim C7: starting from `(0, 0)`, iterating the row-major successor visits
all 81 cells exactly once, in row-major order (the `n`-th coordinate reached is
`(n / 9, n % 9)`), and the 81st application — the successor of `(8, 8)` —
yields no successor. -/
theorem coord_next_iteration :
    ((List.range 81).map iterNext = (List.range 81).map (fun n => some ⟨n / 9, n % 9⟩)) ∧
    iterNext 81 = none ∧
    (∀ r, r < 9 → ∀ c, c < 9 → iterNext (9 * r + c) = some ⟨r, c⟩) :=
  ⟨by decide, by decide, by decide⟩

/-- Witness for C7 at a concrete index: the 32nd visited cell is `(3, 5)`. -/
theorem coord_next_iteration_witness : iterNext (9 * 3 + 5) = some ⟨3, 5⟩ :=
  coord_next_iteration.2.2 3 (by decide) 5 (by decide)

/-- Claim C5: for every grid and in-range coordinate, the candidate set equals
`{1..9}` minus the union of the digits present in the coordinate's row, column
and 3×3 house. -/
theorem get_possible_numbers_spec (s : Sudoku) (c : Coord)
    (hwf : s.wf) (hr : c.row < 9) (hc : c.col < 9) :
    ∃ R C H, s.get_row c.row = some R ∧ s.get_col c.col = some C ∧
      s.get_house ⟨c.row / 3, c.col / 3⟩ = some H ∧
      s.get_possible_numbers c = some (Finset.Icc 1 9 \ (R ∪ C ∪ H)) := by
  refine ⟨_, _, _, Sudoku.get_row_eq hwf hr, Sudoku.get_col_eq hwf hc,
    Sudoku.get_house_eq hwf (by omega) (by omega), ?_⟩
  rw [Sudoku.get_possible_numbers_eq hwf hr hc]
  congr 1
  ext x
  simp only [Finset.mem_sdiff, Finset.mem_union]
  tauto

/-- Witness for C5 at the centre cell of a concrete solved grid. -/
theorem get_possible_numbers_spec_witness :
    ∃ R C H, solvedGrid.get_row 4 = some R ∧ solvedGrid.get_col 4 = some C ∧
      solvedGrid.get_house ⟨1, 1⟩ = some H ∧
      solvedGrid.get_possible_numbers ⟨4, 4⟩ = some (Finset.Icc 1 9 \ (R ∪ C ∪ H)) :=
  get_possible_numbers_spec solvedGrid ⟨4, 4⟩ (by decide) (by decide) (by decide)

/-- Claim C1 (soundness): if `solve` returns a grid as `Ok`, then every row,
every column and every 3×3 house of the returned grid contains each digit 1–9
exactly once.  The input satisfies the grid-model invariant that its present
digits are at most 9 (any grid produced by the parser satisfies it). -/
theorem solve_sound (s t : Sudoku) (hwf : s.wf) (hle : s.cellsLe9)
    (h : s.solve = some (Except.ok t)) :
    (∀ r, r < 9 → groupOnce (t.rowCells r)) ∧
    (∀ c, c < 9 → groupOnce (t.colCells c)) ∧
    (∀ a b, a < 3 → b < 3 → groupOnce (t.houseCells a b)) := by
  obtain ⟨b, hrec, hok, hwft, hlet, -⟩ := Sudoku.solve_ok_elim hwf h
  obtain ⟨-, h1, h2, h3⟩ := validate_ok_groups hwft (hlet hle) hok
  exact ⟨h1, h2, h3⟩

/-- Witness for C1 on a concrete grid that `solve` returns as `Ok`. -/
theorem solve_sound_witness :
    (∀ r, r < 9 → groupOnce (solvedGrid.rowCells r)) ∧
    (∀ c, c < 9 → groupOnce (solvedGrid.colCells c)) ∧
    (∀ a b, a < 3 → b < 3 → groupOnce (solvedGrid.houseCells a b)) :=
  solve_sound solvedGrid solvedGrid (by decide) (by decide) rfl

/-- Counterexample to claim C2 as stated: `dupClueGrid` is `solvedGrid` with
the clue at `(8, 8)` replaced by a (duplicate) `9`.  `solve` returns it as
`Ok`, yet the originally-filled cell `(8, 8)` holds `5`, not its original `9`:
the terminal-cell branch of `solve_rec` overwrites the clue because it never
checks that the last cell is empty. -/
theorem solve_overwrites_last_clue :
    dupClueGrid.solve = some (Except.ok solvedGrid) ∧
    dupClueGrid.get ⟨8, 8⟩ = some (some 9) ∧
    solvedGrid.get ⟨8, 8⟩ = some (some 5) ∧ (9 : Nat) ≠ 5 :=
  ⟨rfl, rfl, rfl, by decide⟩

/-- Claim C2 as amended: if `solve` returns `Ok`, every originally-filled cell
other than the terminal cell `(8, 8)` holds its original digit in the result;
only the clue in the last cell can be overwritten. -/
theorem solve_preserves_clues_except_last (s t : Sudoku) (hwf : s.wf)
    (h : s.solve = some (Except.ok t)) (c : Coord) (hr : c.row < 9) (hc : c.col < 9)
    (hne : c ≠ ⟨8, 8⟩) (d : Nat) (hd : s.get c = some (some d)) :
    t.get c = some (some d) := by
  obtain ⟨b, hrec, hok, hwft, hlet, hpres⟩ := Sudoku.solve_ok_elim hwf h
  exact hpres c hr hc hne d hd

/-- Witness for the amended C2 at the clue `(0, 0)` of a concrete grid. -/
theorem solve_preserves_clues_except_last_witness :
    solvedGrid.get ⟨0, 0⟩ = some (some 1) :=
  solve_preserves_clues_except_last solvedGrid solvedGrid (by decide) rfl ⟨0, 0⟩
    (by decide) (by decide) (by decide) 1 rfl

/-- Claim C8: the top-level solve never mutates the caller's grid — in the
state-passing embedding of the `&self` method, the caller's grid after the
call is the input grid unchanged, whatever the result is. -/
theorem solve_frame_preserves_input (s : Sudoku) (r : Except InvalidSudokuError Sudoku)
    (s' : Sudoku) (h : s.solve_frame = some (r, s')) : s' = s ∧ s.solve = some r := by
  unfold Sudoku.solve_frame at h
  rcases hs : s.solve with _ | r₀ <;> rw [hs] at h
  · cases h
  · cases h
    exact ⟨rfl, by simp [hs]⟩

/-- Witness for C8 on a concrete grid. -/
theorem solve_frame_preserves_input_witness :
    solvedGrid = solvedGrid ∧ solvedGrid.solve = some (Except.ok solvedGrid) :=
  solve_frame_preserves_input solvedGrid (Except.ok solvedGrid) solvedGrid rfl

/-- Claim C4: given the grid produced by the search, `solve` answers `Ok` with
that grid exactly when the validation pass reports no violations, and
otherwise answers the single error `Unsolvable`, whatever the violation set
was. -/
theorem solve_collapses_validation (s : Sudoku) (b : Bool) (t : Sudoku)
    (hrec : Sudoku.solve_rec 81 s ⟨0, 0⟩ = some (b, t))
    (v : Except (Finset InvalidSudokuError) Unit) (hval : t.validate = some v) :
    (s.solve = some (Except.ok t) ↔ v = Except.ok ()) ∧
    (s.solve = some (Except.error InvalidSudokuError.Unsolvable) ↔
      ∃ errs, v = Except.error errs) := by
  rw [Sudoku.solve_match hrec, hval]
  rcases v with errs | u
  · constructor
    · simp
    · simp
  · cases u
    constructor
    · simp
    · simp

/-- Witness for C4 on a concrete grid whose search result validates. -/
theorem solve_collapses_validation_witness :
    (solvedGrid.solve = some (Except.ok solvedGrid) ↔
      (Except.ok () : Except (Finset InvalidSudokuError) Unit) = Except.ok ()) ∧
    (solvedGrid.solve = some (Except.error InvalidSudokuError.Unsolvable) ↔
      ∃ errs, (Except.ok () : Except (Finset InvalidSudokuError) Unit) = Except.error errs) :=
  solve_collapses_validation solvedGrid true solvedGrid rfl (Except.ok ()) rfl

/-- Claim C6: on the last cell `(8, 8)` the search reports success whatever
happens; if the cell is empty it assigns the first available candidate (in
this embedding's ascending candidate order), and assigns nothing — leaving
the grid unchanged — when the candidate set is empty. -/
theorem solve_rec_terminal_spec (s : Sudoku) (fuel : Nat) (hwf : s.wf) :
    ∃ t, Sudoku.solve_rec (fuel + 1) s ⟨8, 8⟩ = some (true, t) ∧
      ∀ cands, s.get_possible_numbers ⟨8, 8⟩ = some cands →
        s.get ⟨8, 8⟩ = some none →
          ((cands = ∅ → t = s) ∧
           (∀ n rest, candidateList cands = n :: rest → s.set ⟨8, 8⟩ n = some t)) := by
  have hpn := @Sudoku.get_possible_numbers_eq s hwf ⟨8, 8⟩ (by decide) (by decide)
  rcases hcl : candidateList (((Finset.Icc 1 9 \
      ((s.rowCells 8).filterMap id).toFinset) \
      ((s.colCells 8).filterMap id).toFinset) \
      ((s.houseCells (8 / 3) (8 / 3)).filterMap id).toFinset) with _ | ⟨n, rest⟩
  · refine ⟨s, ?_, ?_⟩
    · unfold Sudoku.solve_rec
      rw [show (⟨8, 8⟩ : Coord).next = none from rfl, hpn]
      show (match candidateList (((Finset.Icc 1 9 \
          ((s.rowCells 8).filterMap id).toFinset) \
          ((s.colCells 8).filterMap id).toFinset) \
          ((s.houseCells (8 / 3) (8 / 3)).filterMap id).toFinset) with
        | [] => some (true, s)
        | n :: _ =>
          match s.set ⟨8, 8⟩ n with
          | none => none
          | some t => some (true, t)) = _
      rw [hcl]
    · intro cands hcands hempty
      rw [hpn] at hcands
      cases hcands
      exact ⟨fun _ => rfl, fun n rest hnr => by rw [hcl] at hnr; cases hnr⟩
  · obtain ⟨t, hset, -⟩ := Sudoku.set_preserves hwf (show (⟨8, 8⟩ : Coord).row < 9 by decide)
      (show (⟨8, 8⟩ : Coord).col < 9 by decide) n
    refine ⟨t, ?_, ?_⟩
    · unfold Sudoku.solve_rec
      rw [show (⟨8, 8⟩ : Coord).next = none from rfl, hpn]
      show (match candidateList (((Finset.Icc 1 9 \
          ((s.rowCells 8).filterMap id).toFinset) \
          ((s.colCells 8).filterMap id).toFinset) \
          ((s.houseCells (8 / 3) (8 / 3)).filterMap id).toFinset) with
        | [] => some (true, s)
        | n :: _ =>
          match s.set ⟨8, 8⟩ n with
          | none => none
          | some t => some (true, t)) = _
      rw [hcl]
      show (match s.set ⟨8, 8⟩ n with
        | none => none
        | some t => some (true, t)) = _
      rw [hset]
    · intro cands hcands hempty
      rw [hpn] at hcands
      cases hcands
      constructor
      · intro hcemp
        exfalso
        have hmm : n ∈ candidateList (((Finset.Icc 1 9 \
            ((s.rowCells 8).filterMap id).toFinset) \
            ((s.colCells 8).filterMap id).toFinset) \
            ((s.houseCells (8 / 3) (8 / 3)).filterMap id).toFinset) := by
          rw [hcl]
          simp
        have := (candidateList_mem.mp hmm).2.2
        rw [hcemp] at this
        cases this
      · intro n' rest' hnr
        rw [hcl] at hnr
        cases hnr
        exact hset

/-- Witness for C6: on the all-blank grid the terminal step fills `(8, 8)`. -/
theorem solve_rec_terminal_spec_witness :
    ∃ t, Sudoku.solve_rec 1 blankGrid ⟨8, 8⟩ = some (true, t) ∧
      ∀ cands, blankGrid.get_possible_numbers ⟨8, 8⟩ = some cands →
        blankGrid.get ⟨8, 8⟩ = some none →
          ((cands = ∅ → t = blankGrid) ∧
           (∀ n rest, candidateList cands = n :: rest → blankGrid.set ⟨8, 8⟩ n = some t)) :=
  solve_rec_terminal_spec blankGrid 0 (by decide)

/-- Claim C9: on a 9×9 grid whose cells are empty or hold digits in `[1, 9]`,
the validator succeeds exactly when the grid is completely filled and every
row, column and house contains each digit 1–9 exactly once: summing the set of
distinct present digits of a group (duplicates collapse, empties drop out)
yields 45 precisely for the full digit set, so the cheap check is sufficient
as well as necessary. -/
theorem validate_iff_groups (s : Sudoku) (hwf : s.wf) (hin : s.cellsIn1to9) :
    s.validate = some (Except.ok ()) ↔
      (s.complete ∧ (∀ r, r < 9 → groupOnce (s.rowCells r)) ∧
       (∀ c, c < 9 → groupOnce (s.colCells c)) ∧
       (∀ a, a < 3 → ∀ b, b < 3 → groupOnce (s.houseCells a b))) := by
  constructor
  · intro h
    have hle : s.cellsLe9 := by
      intro row hrow o ho
      have hco := hin row hrow o ho
      rcases o with _ | d
      · simp
      · simpa using hco.2
    obtain ⟨hc, h1, h2, h3⟩ := validate_ok_groups hwf hle h
    exact ⟨hc, h1, h2, fun a ha b hb => h3 a b ha hb⟩
  · rintro ⟨-, h1, h2, h3⟩
    exact groups_validate_ok hwf hin h1 h2 (fun a b ha hb => h3 a ha b hb)

/-- Witness for C9 on a concrete valid grid. -/
theorem validate_iff_groups_witness :
    solvedGrid.validate = some (Except.ok ()) :=
  (validate_iff_groups solvedGrid (by decide) (by decide)).mpr (by decide)

/-- Claim C10: on a 9×9 grid, the successor function only yields in-range
coordinates, every primitive access (`get`, `set`, `unset`) and every view
(`get_row`, `get_col`, `get_house`) at in-range indices returns a value
instead of panicking, and the whole solve pipeline from `(0, 0)` — search
then validation — performs no out-of-range access (`isSome` means no panic in
this embedding). -/
theorem solve_accesses_in_bounds (s : Sudoku) (hwf : s.wf) :
    (∀ c c' : Coord, c.row < 9 → c.col < 9 → c.next = some c' →
      c'.row < 9 ∧ c'.col < 9) ∧
    (∀ c : Coord, c.row < 9 → c.col < 9 →
      (s.get c).isSome ∧ (∀ v, (s.set c v).isSome) ∧ (s.unset c).isSome) ∧
    (∀ i, i < 9 → (s.get_row i).isSome ∧ (s.get_col i).isSome) ∧
    (∀ a, a < 3 → ∀ b, b < 3 → (s.get_house ⟨a, b⟩).isSome) ∧
    (Sudoku.solve_rec 81 s ⟨0, 0⟩).isSome ∧ (s.solve).isSome := by
  refine ⟨?_, ?_, ?_, ?_, ?_, ?_⟩
  · intro c c' h1 h2 h3
    obtain ⟨a, b, -⟩ := Coord.next_spec h1 h2 h3
    exact ⟨a, b⟩
  · intro c h1 h2
    refine ⟨?_, ?_, ?_⟩
    · rw [show c = (⟨c.row, c.col⟩ : Coord) from rfl, Sudoku.get_eq hwf h1 h2]
      rfl
    · intro v
      obtain ⟨t, hset, -⟩ := Sudoku.set_preserves hwf h1 h2 v
      rw [hset]
      rfl
    · obtain ⟨t, hunset, -⟩ := Sudoku.unset_preserves hwf h1 h2
      rw [hunset]
      rfl
  · intro i hi
    constructor
    · rw [Sudoku.get_row_eq hwf hi]
      rfl
    · rw [Sudoku.get_col_eq hwf hi]
      rfl
  · intro a ha b hb
    rw [Sudoku.get_house_eq hwf ha hb]
    rfl
  · obtain ⟨b, t, hrec, -⟩ := Sudoku.solve_rec_top hwf
    rw [hrec]
    rfl
  · obtain ⟨b, t, hrec, hwft, -⟩ := Sudoku.solve_rec_top hwf
    obtain ⟨v, hval⟩ := Sudoku.validate_isSome hwft
    rw [Sudoku.solve_match hrec, hval]
    rcases v with errs | u <;> rfl

/-- Witness for C10: the full pipeline runs without panic on a concrete grid. -/
theorem solve_accesses_in_bounds_witness :
    (Sudoku.solve_rec 81 solvedGrid ⟨0, 0⟩).isSome ∧ (solvedGrid.solve).isSome :=
  ⟨(solve_accesses_in_bounds solvedGrid (by decide)).2.2.2.2.1,
   (solve_accesses_in_bounds solvedGrid (by decide)).2.2.2.2.2⟩

/-- Counterexample to claim C3 as stated: `badLines` is not a valid input in
the specification's sense (its first line contains a `'0'`, which is neither
`'1'`–`'9'` nor `'.'`, and its second line has ten characters), yet parsing
succeeds, because `from_str` accepts any ASCII digit including `'0'` and only
checks the length of the first row. -/
theorem from_str_accepts_invalid_input :
    ¬ specValidInput badLines ∧ ∃ g, from_str badLines = Except.ok g :=
  ⟨by decide, ⟨_, rfl⟩⟩

/-- Claim C3 as amended: parsing succeeds exactly when every character of
every line is an ASCII digit `'0'`–`'9'` or the blank marker `'.'`, there are
exactly 9 lines, and the first line has exactly 9 characters; the lengths of
the lines after the first are not checked.  Any other character yields a parse
error, as does a wrong line count or a wrong first-line length, and an error
from parsing is surfaced before any solving is attempted. -/
theorem from_str_ok_iff (lines : List (List Char)) :
    (∃ g, from_str lines = Except.ok g) ↔
      (lines.length = 9 ∧ (lines.headD []).length = 9 ∧
       ∀ l ∈ lines, ∀ ch ∈ l, ch = '.' ∨ ch.isDigit) := by
  constructor
  · rintro ⟨g, hg⟩
    unfold from_str at hg
    rcases hp : parse_rows lines with e | grid <;> rw [hp] at hg
    · cases hg
    replace hg : (if grid.length = 9 then
        (if (grid.headD []).length = 9 then Except.ok (Sudoku.mk grid)
         else Except.error ParseSudokuError.InvalidSize)
      else Except.error ParseSudokuError.InvalidSize) = Except.ok g := hg
    obtain ⟨hlen, hhead, hchars⟩ := parse_rows_spec hp
    by_cases h9 : grid.length = 9
    · rw [if_pos h9] at hg
      by_cases h99 : (grid.headD []).length = 9
      · exact ⟨by omega, by omega, hchars⟩
      · rw [if_neg h99] at hg
        cases hg
    · rw [if_neg h9] at hg
      cases hg
  · rintro ⟨h1, h2, h3⟩
    obtain ⟨g, hg⟩ := parse_rows_ok_of_chars h3
    obtain ⟨hlen, hhead, -⟩ := parse_rows_spec hg
    refine ⟨⟨g⟩, ?_⟩
    unfold from_str
    rw [hg]
    show (if g.length = 9 then
        (if (g.headD []).length = 9 then Except.ok (Sudoku.mk g)
         else Except.error ParseSudokuError.InvalidSize)
      else Except.error ParseSudokuError.InvalidSize) = Except.ok (Sudoku.mk g)
    rw [if_pos (show g.length = 9 by omega), if_pos (show (g.headD []).length = 9 by omega)]

/-- Witness for the amended C3: a fully blank, well-shaped input parses. -/
theorem from_str_ok_iff_witness :
    ∃ g, from_str (List.replicate 9 (List.replicate 9 '.')) = Except.ok g :=
  (from_str_ok_iff (List.replicate 9 (List.replicate 9 '.'))).mpr (by decide)
